import Mathlib

/-!
Shallow embedding of the invoicing application (src/types.ts, src/App.tsx).
JavaScript numbers are modelled as rationals; the monetary spec reasons in
exact two-decimal arithmetic.  Components of the invoice engine whose source
is not in the repository (the `InvoiceManager` module: money arithmetic,
numbering authority, lifecycle) are modelled from the spec and marked so.
-/

namespace FacturaPro

/-- Invoice status, from src/types.ts: `status: 'draft' | 'paid' | 'pending'`. -/
inductive Status where
  | draft
  | paid
  | pending
deriving DecidableEq, Repr

/-- Client record, from src/types.ts (optional fields as `Option`). -/
structure Client where
  id : String
  name : String
  taxId : String
  email : String
  address : String
  city : Option String
  zip : Option String
  phone : Option String
  country : Option String
deriving DecidableEq, Repr

/-- Product record, from src/types.ts. -/
structure Product where
  id : String
  code : String
  name : String
  price : ℚ
  unit : Option String
  description : Option String
deriving DecidableEq, Repr

/-- Invoice line item, from src/types.ts. -/
structure InvoiceItem where
  id : String
  productId : String
  productName : String
  quantity : ℚ
  unitPrice : ℚ
  total : ℚ
deriving DecidableEq, Repr

/-- Invoice record, from src/types.ts. -/
structure Invoice where
  id : String
  number : String
  clientId : String
  clientName : String
  clientAddress : String
  clientTaxId : String
  date : String
  items : List InvoiceItem
  subtotal : ℚ
  taxRate : ℚ
  taxName : String
  taxAmount : ℚ
  retentionRate : ℚ
  retentionName : String
  retentionAmount : ℚ
  total : ℚ
  status : Status
deriving DecidableEq, Repr

/-! ## Report Aggregator (Dashboard component, src/App.tsx lines 476-554) -/

/-- `invoices.reduce((acc, curr) => acc + curr.total, 0)` (src/App.tsx line 501). -/
def totalSales (invoices : List Invoice) : ℚ :=
  invoices.foldl (fun acc curr => acc + curr.total) 0

/-- `invoices.length` (src/App.tsx line 505). -/
def invoiceCount (invoices : List Invoice) : Nat :=
  invoices.length

/-- `invoices.length ? (invoices.reduce((a,c) => a+c.total,0) / invoices.length) : 0`
(src/App.tsx line 510); JavaScript treats `0` as falsy. -/
def averageTicket (invoices : List Invoice) : ℚ :=
  if invoices.length = 0 then 0
  else invoices.foldl (fun a c => a + c.total) 0 / (invoices.length : ℚ)

/-- One point of the dashboard chart; the source uses field names `name`
(the invoice date) and `total` (src/App.tsx line 487). -/
structure ChartPoint where
  name : String
  total : ℚ
deriving DecidableEq, Repr

/-- `invoices.map(i => ({ name: i.date, total: i.total }))` (src/App.tsx line 487). -/
def chartData (invoices : List Invoice) : List ChartPoint :=
  invoices.map (fun i => { name := i.date, total := i.total })

/-! ## Client management (ClientManager component, src/App.tsx lines 55-265)

The JavaScript string primitives `trim`, `split` and `toUpperCase` are
modelled by structural functions over the character list of the string, so
that every operation evaluates inside the kernel. -/

/-- Model of JavaScript `s.trim()`: strip leading and trailing whitespace. -/
def jsTrim (s : String) : String :=
  String.mk (((s.data.dropWhile Char.isWhitespace).reverse.dropWhile Char.isWhitespace).reverse)

/-- Split a character list at every occurrence of the separator. -/
def splitChAux (sep : Char) : List Char → List (List Char)
  | [] => [[]]
  | x :: xs =>
    let r := splitChAux sep xs
    if x = sep then [] :: r
    else
      match r with
      | [] => [[x]]
      | h :: t => (x :: h) :: t

/-- Model of JavaScript `s.split(sep)` for a one-character separator. -/
def jsSplit (s : String) (sep : Char) : List String :=
  (splitChAux sep s.data).map String.mk

/-- Model of JavaScript `s.toUpperCase()` (ASCII letters). -/
def jsToUpper (s : String) : String :=
  String.mk (s.data.map Char.toUpper)

/-- JavaScript `x || d` on an optional string: `undefined` and `""` are falsy. -/
def jsOrS (o : Option String) (d : String) : String :=
  match o with
  | none => d
  | some s => if s = "" then d else s

/-- JavaScript `!x?.trim()`: true when the field is `undefined` or blank after
trimming (the falsy values on this path). -/
def blankO (o : Option String) : Bool :=
  jsTrim (o.getD "") = ""

/-- Form state of the client modal (`formData : Partial<Client>`). -/
structure ClientForm where
  name : Option String := none
  taxId : Option String := none
  email : Option String := none
  address : Option String := none
  city : Option String := none
  zip : Option String := none
  phone : Option String := none
  country : Option String := none
deriving DecidableEq, Repr

/-- The editable fields of the client form. -/
inductive ClientField where
  | name
  | taxId
  | email
  | address
  | city
  | zip
  | phone
  | country
deriving DecidableEq, Repr

/-- `ClientManager.handleInputChange` (src/App.tsx lines 63-67): the tax id is
auto-uppercased before being stored in the form state; every other field is
stored as typed. -/
def handleClientInputChange (f : ClientForm) (field : ClientField) (value : String) : ClientForm :=
  let v := if field = ClientField.taxId then jsToUpper value else value
  match field with
  | .name => { f with name := some v }
  | .taxId => { f with taxId := some v }
  | .email => { f with email := some v }
  | .address => { f with address := some v }
  | .city => { f with city := some v }
  | .zip => { f with zip := some v }
  | .phone => { f with phone := some v }
  | .country => { f with country := some v }

/-- The `newClient` record built by `ClientManager.addClient` (src/App.tsx
lines 92-102); `Date.now().toString()` is modelled by the opaque `newId`. -/
def newClientOf (newId : String) (f : ClientForm) : Client :=
  { id := newId
    name := f.name.getD ""
    taxId := f.taxId.getD ""
    email := f.email.getD ""
    address := f.address.getD ""
    city := some (f.city.getD "")
    zip := some (f.zip.getD "")
    phone := some (f.phone.getD "")
    country := some (jsOrS f.country "México") }

/-- `ClientManager.addClient` (src/App.tsx lines 69-109).  Each alert names the
missing field; the error value is that field's name.  On success the saved
collection is `[...clients, newClient]`. -/
def addClient (newId : String) (f : ClientForm) (clients : List Client) :
    Except String (List Client) :=
  if blankO f.name then Except.error "name"
  else if blankO f.taxId then Except.error "taxId"
  else if blankO f.email then Except.error "email"
  else if blankO f.address then Except.error "address"
  else if blankO f.zip then Except.error "zip"
  else Except.ok (clients ++ [newClientOf newId f])

/-- The stored client collection after an `addClient` attempt: the state is
only replaced on the success path. -/
def clientsAfterAdd (newId : String) (f : ClientForm) (clients : List Client) : List Client :=
  match addClient newId f clients with
  | Except.ok updated => updated
  | Except.error _ => clients

/-- One row of the client CSV import (src/App.tsx lines 120-131): rows whose
first column is missing or blank map to `null`; a missing/blank tax-id column
falls back to the placeholder `XAXX010101000`; country defaults to `México`. -/
def clientRowToClient (newId : String) (line : String) : Option Client :=
  let cols := jsSplit line ','
  if cols.length < 1 ∨ jsTrim (cols.headD "") = "" then none
  else some
    { id := newId
      name := jsTrim (cols.headD "")
      taxId := jsOrS ((cols.get? 1).map jsTrim) "XAXX010101000"
      email := ((cols.get? 2).map jsTrim).getD ""
      address := ((cols.get? 3).map jsTrim).getD ""
      city := none
      zip := none
      phone := none
      country := some "México" }

/-- The client records produced by `ClientManager.handleFileUpload` from the
CSV text: drop the header line, map rows, keep the non-null ones
(src/App.tsx lines 118-131).  Row ids are produced by the opaque `mkId`. -/
def importedClients (mkId : Nat → String) (text : String) : List Client :=
  ((jsSplit text '\n').drop 1).enum.filterMap (fun p => clientRowToClient (mkId p.1) p.2)

/-- The stored client collection after a CSV import (src/App.tsx lines
133-137): saved as `clients ++ newClients` when at least one row imported,
untouched otherwise. -/
def clientsAfterImport (mkId : Nat → String) (clients : List Client) (text : String) :
    List Client :=
  let newClients := importedClients mkId text
  if newClients.length > 0 then clients ++ newClients else clients

/-! ## Product management (ProductManager component, src/App.tsx lines 268-473) -/

/-- Model of JavaScript `parseFloat` restricted to plain decimal numerals:
after optional leading spaces and an optional sign, the longest prefix
`digits [. digits]` or `. digits` is read; `none` models `NaN` (no digits at
all).  Exponent notation is not modelled; no input in this development uses
it. -/
def parseFloatQ (s : String) : Option ℚ :=
  let l := s.data.dropWhile (fun c => c = ' ')
  let sign : ℚ := match l with
    | '-' :: _ => -1
    | _ => 1
  let l1 : List Char := match l with
    | '-' :: rest => rest
    | '+' :: rest => rest
    | _ => l
  let intPart := l1.takeWhile Char.isDigit
  let rest1 := l1.dropWhile Char.isDigit
  let fracPart : List Char := match rest1 with
    | '.' :: r => r.takeWhile Char.isDigit
    | _ => []
  if intPart.isEmpty ∧ fracPart.isEmpty then none
  else
    let ip : ℚ := intPart.foldl (fun a c => a * 10 + ((c.toNat - 48 : ℕ) : ℚ)) 0
    let fp : ℚ := fracPart.foldr (fun c a => (((c.toNat - 48 : ℕ) : ℚ) + a) / 10) 0
    some (sign * (ip + fp))

/-- A value held in the product form's `price` field: the initial state is the
number `0`; any edit through the form stores the raw input string. -/
inductive PriceInput where
  | num (q : ℚ)
  | str (s : String)
deriving DecidableEq, Repr

/-- Form state of the product modal (`formData : Partial<Product>`). -/
structure ProductForm where
  name : Option String := none
  code : Option String := none
  price : Option PriceInput := none
  unit : Option String := none
  description : Option String := none
deriving DecidableEq, Repr

/-- `const priceValue = typeof formData.price === 'string' ?
parseFloat(formData.price) : formData.price` (src/App.tsx line 299): `none`
models both `undefined` and `NaN`, which the guard on line 300 treats alike. -/
def priceValueOf : Option PriceInput → Option ℚ
  | none => none
  | some (PriceInput.str s) => parseFloatQ s
  | some (PriceInput.num q) => some q

/-- The `newProduct` record built by `ProductManager.addProduct` (src/App.tsx
lines 305-312), with `q` the validated price value. -/
def newProductOf (newId : String) (f : ProductForm) (q : ℚ) : Product :=
  { id := newId
    name := f.name.getD ""
    code := f.code.getD ""
    price := q
    unit := some (jsOrS f.unit "H87")
    description := some (f.description.getD "") }

/-- `ProductManager.addProduct` (src/App.tsx lines 285-319).  Each alert names
the offending field; the error value is that field's name.  The price is
rejected when undefined, not a number, or `<= 0`. -/
def addProduct (newId : String) (f : ProductForm) (products : List Product) :
    Except String (List Product) :=
  if blankO f.name then Except.error "name"
  else if blankO f.code then Except.error "code"
  else
    match priceValueOf f.price with
    | none => Except.error "price"
    | some q =>
      if q ≤ 0 then Except.error "price"
      else Except.ok (products ++ [newProductOf newId f q])

/-- The stored product collection after an `addProduct` attempt. -/
def productsAfterAdd (newId : String) (f : ProductForm) (products : List Product) :
    List Product :=
  match addProduct newId f products with
  | Except.ok updated => updated
  | Except.error _ => products

/-- One row of the product CSV import (src/App.tsx lines 330-340): rows with
fewer than two columns or a blank first column map to `null`; the price is
`parseFloat(cols[1]?.trim()) || 0`, so an unparsable price becomes `0`. -/
def productRowToProduct (newId : String) (line : String) : Option Product :=
  let cols := jsSplit line ','
  if cols.length < 2 ∨ jsTrim (cols.headD "") = "" then none
  else some
    { id := newId
      name := jsTrim (cols.headD "")
      price := (parseFloatQ (jsTrim ((cols.get? 1).getD ""))).getD 0
      code := jsOrS ((cols.get? 2).map jsTrim) "CSV-IMP"
      unit := some "H87"
      description := none }

/-- The product records produced by `ProductManager.handleFileUpload`
(src/App.tsx lines 328-340). -/
def importedProducts (mkId : Nat → String) (text : String) : List Product :=
  ((jsSplit text '\n').drop 1).enum.filterMap (fun p => productRowToProduct (mkId p.1) p.2)

/-- The stored product collection after a CSV import (src/App.tsx lines
342-346). -/
def productsAfterImport (mkId : Nat → String) (products : List Product) (text : String) :
    List Product :=
  let newProducts := importedProducts mkId text
  if newProducts.length > 0 then products ++ newProducts else products

/-! ## Money/Rate Arithmetic (spec 4.1)

The `InvoiceManager` module that computes totals is imported by src/App.tsx
but its source is not in the repository, so this component is modelled from
the spec. -/

/-- Modelled from the spec: "all monetary amounts round to 2 decimal places
using standard half-up rounding" (spec 4.1); the implementing module
`components/InvoiceManager` is missing from the repository. -/
def round2 (q : ℚ) : ℚ :=
  (⌊q * 100 + 1 / 2⌋ : ℚ) / 100

/-- Modelled from the spec: "each item total is `quantity * unitPrice`,
rounded to 2 decimals at item-creation time" (spec 4.1); the implementing
module `components/InvoiceManager` is missing from the repository. -/
def mkInvoiceItem (id productId productName : String) (quantity unitPrice : ℚ) : InvoiceItem :=
  { id := id
    productId := productId
    productName := productName
    quantity := quantity
    unitPrice := unitPrice
    total := round2 (quantity * unitPrice) }

/-- The four monetary amounts of an invoice. -/
structure ComputedTotals where
  subtotal : ℚ
  taxAmount : ℚ
  retentionAmount : ℚ
  total : ℚ
deriving DecidableEq, Repr

/-- Modelled from the spec: `subtotal = Σ(item.total)`, `taxAmount =
round2(subtotal * taxRate)`, `retentionAmount = round2(subtotal *
retentionRate)`, `total = subtotal + taxAmount - retentionAmount` (spec 4.1);
the implementing module `components/InvoiceManager` is missing from the
repository. -/
def computeTotals (items : List InvoiceItem) (taxRate retentionRate : ℚ) : ComputedTotals :=
  let subtotal := (items.map InvoiceItem.total).sum
  let taxAmount := round2 (subtotal * taxRate)
  let retentionAmount := round2 (subtotal * retentionRate)
  { subtotal := subtotal
    taxAmount := taxAmount
    retentionAmount := retentionAmount
    total := subtotal + taxAmount - retentionAmount }

/-! ## Numbering Authority (spec 4.2)

Also modelled from the spec: a fixed prefix `INV-` plus the zero-padded
maximum existing numeric suffix plus one. -/

/-- The character of a decimal digit. -/
def digitChar (n : Nat) : Char := Char.ofNat (48 + n)

/-- Fuel-carrying most-significant-first decimal digit rendering. -/
def digitsAux : Nat → Nat → List Char
  | 0, _ => []
  | fuel + 1, n =>
    if n < 10 then [digitChar n]
    else digitsAux fuel (n / 10) ++ [digitChar (n % 10)]

/-- Decimal digits of `n`, most significant first. -/
def decimalDigits (n : Nat) : List Char := digitsAux (n + 1) n

/-- Left-pad a digit list with `0` characters to width 4. -/
def padTo4 (l : List Char) : List Char := List.replicate (4 - l.length) '0' ++ l

/-- Modelled from the spec: "a fixed prefix (e.g. `INV-`) plus a zero-padded
monotonically increasing integer" (spec 4.2); the implementing module
`components/InvoiceManager` is missing from the repository. -/
def numberString (n : Nat) : String :=
  String.mk ('I' :: 'N' :: 'V' :: '-' :: padTo4 (decimalDigits n))

/-- Decimal value of a digit list, most significant first. -/
def parseDigits (l : List Char) : Nat :=
  l.foldl (fun a c => a * 10 + (c.toNat - 48)) 0

/-- The numeric suffix of an invoice number: the digits after the 4-character
`INV-` prefix. -/
def suffixOf (s : String) : Nat := parseDigits (s.data.drop 4)

/-- The maximum numeric suffix occurring in a collection, `0` when empty. -/
def maxSuffix (invs : List Invoice) : Nat :=
  (invs.map (fun i => suffixOf i.number)).foldl max 0

/-- Modelled from the spec: `nextNumber(existingInvoices)` returns the fixed
prefix plus "the maximum existing numeric suffix + 1" (spec 4.2, the policy
the spec requires); the implementing module `components/InvoiceManager` is
missing from the repository. -/
def nextNumber (existing : List Invoice) : String :=
  numberString (maxSuffix existing + 1)

/-- An invoice carrying only a serial number, for persistence simulations. -/
def blankInvoice (num : String) : Invoice :=
  { id := ""
    number := num
    clientId := ""
    clientName := ""
    clientAddress := ""
    clientTaxId := ""
    date := ""
    items := []
    subtotal := 0
    taxRate := 0
    taxName := ""
    taxAmount := 0
    retentionRate := 0
    retentionName := ""
    retentionAmount := 0
    total := 0
    status := Status.draft }

/-- Persist the next generated invoice into the collection. -/
def stepInvoices (invs : List Invoice) : List Invoice :=
  invs ++ [blankInvoice (nextNumber invs)]

/-- The numbers produced by calling `nextNumber` repeatedly, persisting each
result before the next call. -/
def genNumbers : Nat → List Invoice → List String
  | 0, _ => []
  | n + 1, invs => nextNumber invs :: genNumbers n (stepInvoices invs)

/-! ## Invoice Lifecycle (spec 4.3), also modelled from the spec. -/

/-- An illegal status transition, naming the offending from/to pair
(spec 7: "`LifecycleError` (illegal status transition)"). -/
structure LifecycleError where
  fromStatus : Status
  toStatus : Status
deriving DecidableEq, Repr

/-- Modelled from the spec: allowed transitions are `draft → pending`,
`pending → paid`, `draft → paid`, `pending → draft`; no transition leaves
`paid` (the "no exit from paid" policy the spec recommends, spec 4.3); the
implementing module `components/InvoiceManager` is missing from the
repository. -/
def allowedTransition : Status → Status → Bool
  | Status.draft, Status.pending => true
  | Status.pending, Status.paid => true
  | Status.draft, Status.paid => true
  | Status.pending, Status.draft => true
  | _, _ => false

/-- Modelled from the spec: a transition request either updates the status or
fails with a `LifecycleError` naming the offending pair, never a silent no-op
(spec 4.3, 7); the implementing module `components/InvoiceManager` is missing
from the repository. -/
def requestTransition (inv : Invoice) (target : Status) : Except LifecycleError Invoice :=
  if allowedTransition inv.status target then Except.ok { inv with status := target }
  else Except.error { fromStatus := inv.status, toStatus := target }

/-- The stored invoice after a transition request: unchanged on error. -/
def invoiceAfterRequest (inv : Invoice) (target : Status) : Invoice :=
  match requestTransition inv target with
  | Except.ok updated => updated
  | Except.error _ => inv

/-! ## Concrete sample values used by the scenario and witness statements. -/

/-- An invoice with only serial number, date and total set. -/
def sampleInvoice (num date : String) (tot : ℚ) : Invoice :=
  { blankInvoice num with date := date, total := tot }

/-- Two invoices issued on the same day. -/
def sameDayA : Invoice := sampleInvoice "INV-0001" "2024-05-01" 100

/-- Two invoices issued on the same day. -/
def sameDayB : Invoice := sampleInvoice "INV-0002" "2024-05-01" 50

/-- A fully filled client form. -/
def filledClientForm : ClientForm :=
  { name := some "Acme SA"
    taxId := some "AAA010101AAA"
    email := some "ventas@acme.mx"
    address := some "Calle 1"
    zip := some "06600" }

/-- The untouched (all-`undefined`) client form. -/
def emptyClientForm : ClientForm := {}

/-- A fully filled product form with a positive string price. -/
def filledProductForm : ProductForm :=
  { name := some "Licencia"
    code := some "81112200"
    price := some (PriceInput.str "49.99") }

/-- The client produced by importing the single-column CSV row `Acme`. -/
def sampleImportedClient : Client :=
  { id := "c1"
    name := "Acme"
    taxId := "XAXX010101000"
    email := ""
    address := ""
    city := none
    zip := none
    phone := none
    country := some "México" }

/-- An invoice already marked paid. -/
def paidInvoice : Invoice := { blankInvoice "INV-0007" with status := Status.paid }

/-- The property claim C5 asserts of the dashboard chart series: exactly one
point per distinct invoice date, carrying the sum of the totals of the
invoices bearing that date. -/
def dateBucketedChart (invs : List Invoice) : Prop :=
  ∀ d ∈ invs.map Invoice.date,
    ((chartData invs).filter (fun p => p.name = d)).length = 1 ∧
    (((chartData invs).filter (fun p => p.name = d)).map ChartPoint.total).sum
      = ((invs.filter (fun i => i.date = d)).map Invoice.total).sum

/-! ## Theorems -/

lemma foldl_add_total (l : List Invoice) (a : ℚ) :
    l.foldl (fun acc c => acc + c.total) a = a + (l.map Invoice.total).sum := by
  induction l generalizing a with
  | nil => simp
  | cons h t ih => simp [List.foldl, ih, add_assoc]

/-- C4: for every invoice collection the dashboard computes `totalSales` as
the sum of the invoices' totals, `invoiceCount` as the number of invoices,
and `averageTicket` as their quotient, guarded to `0` on the empty
collection, which yields `0, 0, 0`. -/
theorem dashboard_metrics (invs : List Invoice) :
    totalSales invs = (invs.map Invoice.total).sum
    ∧ invoiceCount invs = invs.length
    ∧ (invs.length ≠ 0 →
        averageTicket invs = totalSales invs / (invoiceCount invs : ℚ))
    ∧ (invs.length = 0 → averageTicket invs = 0)
    ∧ totalSales [] = 0 ∧ invoiceCount [] = 0 ∧ averageTicket [] = 0 := by
  refine ⟨?_, rfl, ?_, ?_, ?_, rfl, ?_⟩
  · simpa using foldl_add_total invs 0
  · intro h
    simp [averageTicket, totalSales, invoiceCount, h]
  · intro h
    simp [averageTicket, h]
  · simp [totalSales]
  · simp [averageTicket]

/-- Witness for C4 at a one-invoice collection and the empty collection. -/
theorem dashboard_metrics_witness :
    averageTicket [sameDayA] = totalSales [sameDayA] / (invoiceCount [sameDayA] : ℚ)
    ∧ averageTicket [] = 0 :=
  ⟨(dashboard_metrics [sameDayA]).2.2.1 (by simp),
   (dashboard_metrics []).2.2.2.1 rfl⟩

/-- C5 counterexample: two invoices sharing the date `2024-05-01` produce two
chart points for that date, not the single merged bucket the claim
asserts. -/
theorem chart_not_bucketed : ¬ dateBucketedChart [sameDayA, sameDayB] := by
  intro h
  obtain ⟨hlen, -⟩ :=
    h "2024-05-01" (by simp [sameDayA, sampleInvoice, blankInvoice])
  simp [chartData, sameDayA, sameDayB, sampleInvoice, blankInvoice] at hlen

/-- C5 (amended): the dashboard chart series contains exactly one point per
invoice, in order, carrying that invoice's date and total; invoices sharing
a date are not merged. -/
theorem chartData_per_invoice (invs : List Invoice) :
    (chartData invs).length = invs.length
    ∧ (chartData invs).map ChartPoint.name = invs.map Invoice.date
    ∧ (chartData invs).map ChartPoint.total = invs.map Invoice.total := by
  refine ⟨by simp [chartData], ?_, ?_⟩ <;> simp [chartData]

lemma addClient_ok_iff (newId : String) (f : ClientForm) (cs : List Client) :
    (∃ res, addClient newId f cs = Except.ok res) ↔
      (jsTrim (f.name.getD "") ≠ "" ∧ jsTrim (f.taxId.getD "") ≠ "" ∧
       jsTrim (f.email.getD "") ≠ "" ∧ jsTrim (f.address.getD "") ≠ "" ∧
       jsTrim (f.zip.getD "") ≠ "") := by
  unfold addClient
  split_ifs with h1 h2 h3 h4 h5 <;> simp_all [blankO]

lemma addClient_ok_shape (newId : String) (f : ClientForm) (cs : List Client)
    (res : List Client) (h : addClient newId f cs = Except.ok res) :
    res = cs ++ [newClientOf newId f] := by
  revert h
  unfold addClient
  split_ifs <;> simp
  exact fun h => h.symm

lemma addClient_error_cases (newId : String) (f : ClientForm) (cs : List Client)
    (e : String) (h : addClient newId f cs = Except.error e) :
    clientsAfterAdd newId f cs = cs ∧
      e = (if blankO f.name then "name" else if blankO f.taxId then "taxId"
           else if blankO f.email then "email"
           else if blankO f.address then "address" else "zip") := by
  refine ⟨by simp [clientsAfterAdd, h], ?_⟩
  revert h
  unfold addClient
  split_ifs <;> intro h <;> simp_all

/-- C6: creating a client through the form succeeds, appending the new client
to the saved collection, exactly when name, taxId, email, address and zip
are all non-blank after trimming; otherwise the error names the first
missing field (the five messages are pairwise distinct) and the stored
collection is unchanged. -/
theorem addClient_validation (newId : String) (f : ClientForm) (cs : List Client) :
    ((∃ res, addClient newId f cs = Except.ok res) ↔
      (jsTrim (f.name.getD "") ≠ "" ∧ jsTrim (f.taxId.getD "") ≠ "" ∧
       jsTrim (f.email.getD "") ≠ "" ∧ jsTrim (f.address.getD "") ≠ "" ∧
       jsTrim (f.zip.getD "") ≠ ""))
    ∧ (∀ res, addClient newId f cs = Except.ok res →
        res = cs ++ [newClientOf newId f]
        ∧ clientsAfterAdd newId f cs = cs ++ [newClientOf newId f])
    ∧ (∀ e, addClient newId f cs = Except.error e →
        clientsAfterAdd newId f cs = cs ∧
        e = (if blankO f.name then "name" else if blankO f.taxId then "taxId"
             else if blankO f.email then "email"
             else if blankO f.address then "address" else "zip"))
    ∧ List.Pairwise (fun a b => a ≠ b) ["name", "taxId", "email", "address", "zip"] := by
  refine ⟨addClient_ok_iff newId f cs, ?_, ?_, by decide⟩
  · intro res h
    have hs := addClient_ok_shape newId f cs res h
    exact ⟨hs, by simp [clientsAfterAdd, h, hs]⟩
  · intro e h
    exact addClient_error_cases newId f cs e h

/-- Witness for C6: a filled form succeeds, the empty form changes nothing. -/
theorem addClient_validation_witness :
    (∃ res, addClient "id1" filledClientForm [] = Except.ok res)
    ∧ clientsAfterAdd "id2" emptyClientForm [] = [] := by
  refine ⟨(addClient_validation "id1" filledClientForm []).1.mpr (by decide), ?_⟩
  exact ((addClient_validation "id2" emptyClientForm []).2.2.1 "name" (by rfl)).1

lemma clientsAfterImport_eq (mkId : Nat → String) (cs : List Client) (text : String) :
    clientsAfterImport mkId cs text = cs ++ importedClients mkId text := by
  unfold clientsAfterImport
  dsimp only
  split_ifs with h
  · rfl
  · have hz : importedClients mkId text = [] := by
      rw [← List.length_eq_zero]
      omega
    simp [hz]

lemma productsAfterImport_eq (mkId : Nat → String) (ps : List Product) (text : String) :
    productsAfterImport mkId ps text = ps ++ importedProducts mkId text := by
  unfold productsAfterImport
  dsimp only
  split_ifs with h
  · rfl
  · have hz : importedProducts mkId text = [] := by
      rw [← List.length_eq_zero]
      omega
    simp [hz]

lemma addProduct_ok_shape (newId : String) (f : ProductForm) (ps : List Product)
    (res : List Product) (h : addProduct newId f ps = Except.ok res) :
    ∃ q, priceValueOf f.price = some q ∧ 0 < q ∧ res = ps ++ [newProductOf newId f q] := by
  revert h
  unfold addProduct
  split_ifs with h1 h2
  · simp
  · simp
  cases hm : priceValueOf f.price with
  | none => simp
  | some q =>
    dsimp only
    split_ifs with hq
    · simp
    · intro h
      exact ⟨q, rfl, by linarith, by simpa using h.symm⟩

lemma addProduct_ok_iff (newId : String) (f : ProductForm) (ps : List Product) :
    (∃ res, addProduct newId f ps = Except.ok res) ↔
      (jsTrim (f.name.getD "") ≠ "" ∧ jsTrim (f.code.getD "") ≠ "" ∧
       ∃ q, priceValueOf f.price = some q ∧ 0 < q) := by
  unfold addProduct
  split_ifs with h1 h2 <;> simp_all [blankO]
  cases hm : priceValueOf f.price with
  | none => simp
  | some q =>
    dsimp only
    split_ifs with hq
    · simp
      exact hq
    · simp
      linarith

lemma addProduct_error_unchanged (newId : String) (f : ProductForm) (ps : List Product)
    (e : String) (h : addProduct newId f ps = Except.error e) :
    productsAfterAdd newId f ps = ps := by
  simp [productsAfterAdd, h]

/-- C10: adding a client or product, through the form or CSV import, only
appends: the collection saved afterwards extends the previous collection,
so every prior record is still present, unchanged, at its original
position. -/
theorem collections_append_only (newId : String) (mkId : Nat → String)
    (cf : ClientForm) (pf : ProductForm) (cs : List Client) (ps : List Product)
    (ctext ptext : String) :
    (∃ t, clientsAfterAdd newId cf cs = cs ++ t)
    ∧ (∃ t, clientsAfterImport mkId cs ctext = cs ++ t)
    ∧ (∃ t, productsAfterAdd newId pf ps = ps ++ t)
    ∧ (∃ t, productsAfterImport mkId ps ptext = ps ++ t) := by
  refine ⟨?_, ⟨importedClients mkId ctext, clientsAfterImport_eq mkId cs ctext⟩,
    ?_, ⟨importedProducts mkId ptext, productsAfterImport_eq mkId ps ptext⟩⟩
  · cases h : addClient newId cf cs with
    | error e => exact ⟨[], by simp [clientsAfterAdd, h]⟩
    | ok u =>
      exact ⟨[newClientOf newId cf],
        by simp [clientsAfterAdd, h, addClient_ok_shape newId cf cs u h]⟩
  · cases h : addProduct newId pf ps with
    | error e => exact ⟨[], by simp [productsAfterAdd, h]⟩
    | ok u =>
      obtain ⟨q, -, -, hu⟩ := addProduct_ok_shape newId pf ps u h
      exact ⟨[newProductOf newId pf q], by simp [productsAfterAdd, h, hu]⟩

lemma clientRow_fields (newId line : String) (c : Client)
    (h : clientRowToClient newId line = some c) :
    c.taxId = jsOrS (((jsSplit line ',').get? 1).map jsTrim) "XAXX010101000"
    ∧ c.country = some "México" := by
  revert h
  unfold clientRowToClient
  dsimp only
  split_ifs
  · simp
  · intro h
    cases h
    exact ⟨rfl, rfl⟩

lemma productRow_price (newId line : String) (p : Product)
    (h : productRowToProduct newId line = some p) :
    p.price = (parseFloatQ (jsTrim (((jsSplit line ',').get? 1).getD ""))).getD 0 := by
  revert h
  unfold productRowToProduct
  dsimp only
  split_ifs
  · simp
  · intro h
    cases h
    rfl

/-- C7 counterexample: the CSV import row `acme,abc` stores the tax id `abc`
as-is, which differs from its uppercase form `ABC`. -/
theorem csv_taxId_counterexample :
    (clientRowToClient "c1" "acme,abc").map Client.taxId = some "abc"
    ∧ jsToUpper "abc" = "ABC"
    ∧ ("abc" : String) ≠ "ABC" :=
  ⟨by decide, by decide, by decide⟩

/-- C7 (amended): clients created through the form store the uppercase form
of the typed tax id, but CSV-imported clients store the trimmed tax-id
column (or the placeholder) without uppercasing. -/
theorem taxId_normalization (newId value : String) (f : ClientForm) (cs : List Client) :
    (handleClientInputChange f ClientField.taxId value).taxId = some (jsToUpper value)
    ∧ (∀ res,
        addClient newId (handleClientInputChange f ClientField.taxId value) cs
          = Except.ok res →
        res = cs ++ [newClientOf newId (handleClientInputChange f ClientField.taxId value)]
        ∧ (newClientOf newId (handleClientInputChange f ClientField.taxId value)).taxId
            = jsToUpper value)
    ∧ (∀ line c, clientRowToClient newId line = some c →
        c.taxId = jsOrS (((jsSplit line ',').get? 1).map jsTrim) "XAXX010101000") := by
  refine ⟨by simp [handleClientInputChange], ?_, ?_⟩
  · intro res h
    refine ⟨addClient_ok_shape _ _ _ _ h, ?_⟩
    simp [newClientOf, handleClientInputChange]
  · intro line c h
    exact (clientRow_fields newId line c h).1

/-- Witness for C7 at a concrete form input and a concrete CSV row. -/
theorem taxId_normalization_witness :
    (handleClientInputChange emptyClientForm ClientField.taxId "abc").taxId
      = some (jsToUpper "abc")
    ∧ sampleImportedClient.taxId
      = jsOrS (((jsSplit "Acme" ',').get? 1).map jsTrim) "XAXX010101000" :=
  ⟨(taxId_normalization "c9" "abc" emptyClientForm []).1,
   (taxId_normalization "c1" "Acme" emptyClientForm []).2.2 "Acme" sampleImportedClient
     (by decide)⟩

/-- C8 counterexample: the CSV import row `Widget,-5` stores a product with
price `-5`, violating `price > 0`. -/
theorem csv_price_counterexample :
    (productRowToProduct "p1" "Widget,-5").map Product.price = some (-5)
    ∧ ¬ (0 < (-5 : ℚ)) := by
  constructor
  · have h3 : jsSplit "Widget,-5" ',' = ["Widget", "-5"] := by decide
    have h4 : jsTrim "Widget" = "Widget" := by decide
    have h1 : jsTrim "-5" = "-5" := by decide
    have h2 : parseFloatQ "-5" = some (-5) := by simp [parseFloatQ]
    simp [productRowToProduct, h3, h4, h1, h2]
  · norm_num

/-- C8 (amended): products created through the form always have `price > 0`,
and a missing, non-numeric, zero or negative form price is rejected without
modifying the stored collection; the CSV import instead stores
`parseFloat(col) || 0`, which can be zero or negative. -/
theorem product_price_validation (newId : String) (f : ProductForm) (ps : List Product) :
    ((∃ res, addProduct newId f ps = Except.ok res) ↔
      (jsTrim (f.name.getD "") ≠ "" ∧ jsTrim (f.code.getD "") ≠ "" ∧
       ∃ q, priceValueOf f.price = some q ∧ 0 < q))
    ∧ (∀ res, addProduct newId f ps = Except.ok res →
        ∃ p, res = ps ++ [p] ∧ productsAfterAdd newId f ps = ps ++ [p] ∧ 0 < p.price)
    ∧ (∀ e, addProduct newId f ps = Except.error e → productsAfterAdd newId f ps = ps)
    ∧ (∀ line p, productRowToProduct newId line = some p →
        p.price = (parseFloatQ (jsTrim (((jsSplit line ',').get? 1).getD ""))).getD 0) := by
  refine ⟨addProduct_ok_iff newId f ps, ?_, addProduct_error_unchanged newId f ps, ?_⟩
  · intro res h
    obtain ⟨q, hq1, hq2, hq3⟩ := addProduct_ok_shape newId f ps res h
    exact ⟨newProductOf newId f q, hq3, by simp [productsAfterAdd, h, hq3], hq2⟩
  · intro line p h
    exact productRow_price newId line p h

/-- Witness for C8: a filled form succeeds, the empty form changes nothing. -/
theorem product_price_validation_witness :
    (∃ res, addProduct "p1" filledProductForm [] = Except.ok res)
    ∧ productsAfterAdd "p2" {} [] = [] := by
  constructor
  · refine (product_price_validation "p1" filledProductForm []).1.mpr
      ⟨by decide, by decide, 4999 / 100, ?_, by norm_num⟩
    show parseFloatQ "49.99" = some (4999 / 100)
    simp [parseFloatQ]
    norm_num
  · exact (product_price_validation "p2" {} []).2.2.1 "name" (by rfl)

/-- C9: every imported CSV client row with a missing or blank tax-id column
stores the placeholder `XAXX010101000`, and every imported client stores the
default country `México`. -/
theorem csv_client_defaults (newId line : String) (c : Client)
    (h : clientRowToClient newId line = some c) :
    ((((jsSplit line ',').get? 1).map jsTrim = none ∨
      ((jsSplit line ',').get? 1).map jsTrim = some "") → c.taxId = "XAXX010101000")
    ∧ c.country = some "México" := by
  obtain ⟨ht, hc⟩ := clientRow_fields newId line c h
  refine ⟨?_, hc⟩
  intro hcase
  rcases hcase with h1 | h1 <;> rw [ht, h1] <;> simp [jsOrS]

/-- Witness for C9 at the single-column row `Acme`. -/
theorem csv_client_defaults_witness :
    sampleImportedClient.taxId = "XAXX010101000"
    ∧ sampleImportedClient.country = some "México" := by
  have h := csv_client_defaults "c1" "Acme" sampleImportedClient (by decide)
  exact ⟨h.1 (Or.inl (by decide)), h.2⟩

/-- C1: for every item sequence and rates `>= 0` the computed totals satisfy
`subtotal = sum of item.total`, `taxAmount = round2(subtotal*taxRate)`,
`retentionAmount = round2(subtotal*retentionRate)` and
`total = subtotal + taxAmount - retentionAmount`; zero items yield
`subtotal = total = 0`, and the scenario qty 2 at 100.00 with 16% tax gives
200.00 / 32.00 / 232.00. -/
theorem computeTotals_spec (items : List InvoiceItem) (taxRate retentionRate : ℚ)
    (_htax : 0 ≤ taxRate) (_hret : 0 ≤ retentionRate) :
    (computeTotals items taxRate retentionRate).subtotal = (items.map InvoiceItem.total).sum
    ∧ (computeTotals items taxRate retentionRate).taxAmount
        = round2 ((computeTotals items taxRate retentionRate).subtotal * taxRate)
    ∧ (computeTotals items taxRate retentionRate).retentionAmount
        = round2 ((computeTotals items taxRate retentionRate).subtotal * retentionRate)
    ∧ (computeTotals items taxRate retentionRate).total
        = (computeTotals items taxRate retentionRate).subtotal
          + (computeTotals items taxRate retentionRate).taxAmount
          - (computeTotals items taxRate retentionRate).retentionAmount
    ∧ (computeTotals [] taxRate retentionRate).subtotal = 0
    ∧ (computeTotals [] taxRate retentionRate).total = 0
    ∧ (computeTotals [mkInvoiceItem "i1" "p1" "Producto" 2 100] (16 / 100) 0).subtotal = 200
    ∧ (computeTotals [mkInvoiceItem "i1" "p1" "Producto" 2 100] (16 / 100) 0).taxAmount = 32
    ∧ (computeTotals [mkInvoiceItem "i1" "p1" "Producto" 2 100] (16 / 100) 0).retentionAmount = 0
    ∧ (computeTotals [mkInvoiceItem "i1" "p1" "Producto" 2 100] (16 / 100) 0).total = 232 := by
  refine ⟨rfl, rfl, rfl, rfl, by simp [computeTotals], ?_, ?_, ?_, ?_, ?_⟩
  · show (0 : ℚ) + round2 (0 * taxRate) - round2 (0 * retentionRate) = 0
    norm_num [round2]
  · show ([mkInvoiceItem "i1" "p1" "Producto" 2 100].map InvoiceItem.total).sum = 200
    norm_num [mkInvoiceItem, round2]
  · show round2 (([mkInvoiceItem "i1" "p1" "Producto" 2 100].map InvoiceItem.total).sum
        * (16 / 100)) = 32
    norm_num [mkInvoiceItem, round2]
  · show round2 (([mkInvoiceItem "i1" "p1" "Producto" 2 100].map InvoiceItem.total).sum * 0) = 0
    norm_num [mkInvoiceItem, round2]
  · show ([mkInvoiceItem "i1" "p1" "Producto" 2 100].map InvoiceItem.total).sum
        + round2 (([mkInvoiceItem "i1" "p1" "Producto" 2 100].map InvoiceItem.total).sum
            * (16 / 100))
        - round2 (([mkInvoiceItem "i1" "p1" "Producto" 2 100].map InvoiceItem.total).sum * 0)
        = 232
    norm_num [mkInvoiceItem, round2]

/-- Witness for C1 at the spec's concrete scenario. -/
theorem computeTotals_spec_witness :
    (0 : ℚ) ≤ 16 / 100 ∧ (0 : ℚ) ≤ 0
    ∧ (computeTotals [mkInvoiceItem "i1" "p1" "Producto" 2 100] (16 / 100) 0).subtotal = 200
    ∧ (computeTotals [mkInvoiceItem "i1" "p1" "Producto" 2 100] (16 / 100) 0).taxAmount = 32
    ∧ (computeTotals [mkInvoiceItem "i1" "p1" "Producto" 2 100] (16 / 100) 0).total = 232 := by
  have h := computeTotals_spec [mkInvoiceItem "i1" "p1" "Producto" 2 100] (16 / 100) 0
    (by norm_num) (by norm_num)
  exact ⟨by norm_num, by norm_num, h.2.2.2.2.2.2.1, h.2.2.2.2.2.2.2.1, h.2.2.2.2.2.2.2.2.2⟩

/-- C3: the status machine accepts `draft -> pending -> paid`; a requested
`paid -> pending` transition fails with a `LifecycleError` naming the
offending pair and leaves the invoice unchanged; every disallowed request
returns such an error, never a silent no-op. -/
theorem lifecycle_spec (inv : Invoice) :
    (inv.status = Status.draft →
      requestTransition inv Status.pending
        = Except.ok { inv with status := Status.pending }
      ∧ requestTransition { inv with status := Status.pending } Status.paid
        = Except.ok { inv with status := Status.paid })
    ∧ (inv.status = Status.paid →
        requestTransition inv Status.pending
          = Except.error { fromStatus := Status.paid, toStatus := Status.pending }
        ∧ invoiceAfterRequest inv Status.pending = inv)
    ∧ (∀ target, allowedTransition inv.status target = false →
        requestTransition inv target
          = Except.error { fromStatus := inv.status, toStatus := target }
        ∧ invoiceAfterRequest inv target = inv
        ∧ (invoiceAfterRequest inv target).status = inv.status) := by
  refine ⟨?_, ?_, ?_⟩
  · intro h
    constructor
    · simp [requestTransition, h, allowedTransition]
    · simp [requestTransition, allowedTransition]
  · intro h
    have he : requestTransition inv Status.pending
        = Except.error { fromStatus := Status.paid, toStatus := Status.pending } := by
      simp [requestTransition, h, allowedTransition]
    exact ⟨he, by simp [invoiceAfterRequest, he]⟩
  · intro target h
    have he : requestTransition inv target
        = Except.error { fromStatus := inv.status, toStatus := target } := by
      simp [requestTransition, h]
    exact ⟨he, by simp [invoiceAfterRequest, he], by simp [invoiceAfterRequest, he]⟩

/-- Witness for C3 at a draft invoice and a paid invoice. -/
theorem lifecycle_spec_witness :
    requestTransition (blankInvoice "INV-0001") Status.pending
      = Except.ok { blankInvoice "INV-0001" with status := Status.pending }
    ∧ requestTransition paidInvoice Status.pending
      = Except.error { fromStatus := Status.paid, toStatus := Status.pending }
    ∧ invoiceAfterRequest paidInvoice Status.pending = paidInvoice :=
  ⟨((lifecycle_spec (blankInvoice "INV-0001")).1 rfl).1,
   ((lifecycle_spec paidInvoice).2.1 rfl).1,
   ((lifecycle_spec paidInvoice).2.1 rfl).2⟩

lemma foldl_digits (l : List Char) (a : Nat) :
    l.foldl (fun x c => x * 10 + (c.toNat - 48)) a
      = a * 10 ^ l.length + l.foldl (fun x c => x * 10 + (c.toNat - 48)) 0 := by
  induction l generalizing a with
  | nil => simp
  | cons c t ih =>
    simp only [List.foldl_cons, List.length_cons]
    rw [ih (a * 10 + (c.toNat - 48)), ih (0 * 10 + (c.toNat - 48))]
    ring

lemma parseDigits_append (l1 l2 : List Char) :
    parseDigits (l1 ++ l2) = parseDigits l1 * 10 ^ l2.length + parseDigits l2 := by
  unfold parseDigits
  rw [List.foldl_append, foldl_digits]

lemma parseDigits_replicate_zero (k : Nat) (l : List Char) :
    parseDigits (List.replicate k '0' ++ l) = parseDigits l := by
  rw [parseDigits_append]
  have hz : parseDigits (List.replicate k '0') = 0 := by
    induction k with
    | zero => rfl
    | succ n ih =>
      rw [List.replicate_succ]
      unfold parseDigits at ih ⊢
      simp only [List.foldl_cons]
      have h0 : ('0'.toNat - 48) = 0 := by decide
      simpa [h0] using ih
  simp [hz]

lemma parseDigits_digitChar (d : Nat) (h : d < 10) : parseDigits [digitChar d] = d := by
  interval_cases d <;> decide

lemma parseDigits_digitsAux (fuel n : Nat) (h : n < fuel) :
    parseDigits (digitsAux fuel n) = n := by
  induction fuel generalizing n with
  | zero => omega
  | succ fuel ih =>
    unfold digitsAux
    split_ifs with h10
    · exact parseDigits_digitChar n h10
    · have hdiv : n / 10 < fuel := by
        have h1 : n / 10 < n := Nat.div_lt_self (by omega) (by omega)
        omega
      rw [parseDigits_append, ih (n / 10) hdiv,
        parseDigits_digitChar (n % 10) (Nat.mod_lt _ (by omega))]
      simp only [List.length_cons, List.length_nil, pow_one, zero_add]
      omega

lemma parseDigits_decimalDigits (n : Nat) : parseDigits (decimalDigits n) = n :=
  parseDigits_digitsAux (n + 1) n (by omega)

lemma suffixOf_numberString (n : Nat) : suffixOf (numberString n) = n := by
  have hdata : (numberString n).data
      = 'I' :: 'N' :: 'V' :: '-'
        :: (List.replicate (4 - (decimalDigits n).length) '0' ++ decimalDigits n) := rfl
  unfold suffixOf
  rw [hdata]
  simp only [List.drop_succ_cons, List.drop_zero]
  rw [parseDigits_replicate_zero, parseDigits_decimalDigits]

lemma suffixOf_nextNumber (invs : List Invoice) :
    suffixOf (nextNumber invs) = maxSuffix invs + 1 :=
  suffixOf_numberString _

lemma le_foldl_max (l : List Nat) (a : Nat) : a ≤ l.foldl max a := by
  induction l generalizing a with
  | nil => simp
  | cons x t ih => exact le_trans (le_max_left a x) (ih (max a x))

lemma mem_le_foldl_max (l : List Nat) (a : Nat) : ∀ x ∈ l, x ≤ l.foldl max a := by
  induction l generalizing a with
  | nil =>
    intro x hx
    cases hx
  | cons y t ih =>
    intro x hx
    rcases List.mem_cons.mp hx with h | h
    · subst h
      exact le_trans (le_max_right a x) (le_foldl_max t (max a x))
    · exact ih (max a y) x h

lemma suffix_le_maxSuffix (invs : List Invoice) (i : Invoice) (hi : i ∈ invs) :
    suffixOf i.number ≤ maxSuffix invs := by
  unfold maxSuffix
  exact mem_le_foldl_max _ 0 _ (List.mem_map_of_mem _ hi)

lemma maxSuffix_append (invs : List Invoice) (i : Invoice) :
    maxSuffix (invs ++ [i]) = max (maxSuffix invs) (suffixOf i.number) := by
  unfold maxSuffix
  rw [List.map_append, List.foldl_append]
  rfl

lemma maxSuffix_step (invs : List Invoice) :
    maxSuffix (stepInvoices invs) = maxSuffix invs + 1 := by
  unfold stepInvoices
  rw [maxSuffix_append]
  have hsfx : suffixOf (blankInvoice (nextNumber invs)).number = maxSuffix invs + 1 :=
    suffixOf_nextNumber invs
  rw [hsfx]
  omega

lemma genNumbers_length (N : Nat) (invs : List Invoice) :
    (genNumbers N invs).length = N := by
  induction N generalizing invs with
  | zero => rfl
  | succ N ih => simpa [genNumbers] using ih (stepInvoices invs)

lemma genNumbers_suffix_gt (N : Nat) (invs : List Invoice) :
    ∀ s ∈ genNumbers N invs, maxSuffix invs < suffixOf s := by
  induction N generalizing invs with
  | zero =>
    intro s hs
    cases hs
  | succ N ih =>
    intro s hs
    rcases List.mem_cons.mp hs with h | h
    · subst h
      rw [suffixOf_nextNumber]
      omega
    · have hgt := ih (stepInvoices invs) s h
      rw [maxSuffix_step] at hgt
      omega

lemma genNumbers_pairwise (N : Nat) (invs : List Invoice) :
    (genNumbers N invs).Pairwise (fun a b => suffixOf a < suffixOf b) := by
  induction N generalizing invs with
  | zero => exact List.Pairwise.nil
  | succ N ih =>
    refine List.Pairwise.cons ?_ (ih (stepInvoices invs))
    intro b hb
    have hgt := genNumbers_suffix_gt N (stepInvoices invs) b hb
    rw [maxSuffix_step] at hgt
    rw [suffixOf_nextNumber]
    omega

/-- C2: `nextNumber` returns a number absent from the collection and greater
by numeric suffix than every existing number; persisting repeatedly yields
`N` distinct, strictly suffix-increasing values, each greater than every
number in the collection it was generated from — for any collection, hence
also after deleting the highest-numbered invoice; from zero invoices the
first two results are `INV-0001` then `INV-0002`. -/
theorem nextNumber_spec (invs : List Invoice) (N : Nat) :
    nextNumber invs ∉ invs.map Invoice.number
    ∧ (∀ i ∈ invs, suffixOf i.number < suffixOf (nextNumber invs))
    ∧ (genNumbers N invs).length = N
    ∧ (genNumbers N invs).Pairwise (fun a b => suffixOf a < suffixOf b)
    ∧ (genNumbers N invs).Nodup
    ∧ (∀ s ∈ genNumbers N invs, ∀ i ∈ invs, suffixOf i.number < suffixOf s)
    ∧ genNumbers 2 [] = ["INV-0001", "INV-0002"]
    ∧ genNumbers 2 [blankInvoice "INV-0001", blankInvoice "INV-0002"]
        = ["INV-0003", "INV-0004"] := by
  refine ⟨?_, ?_, genNumbers_length N invs, genNumbers_pairwise N invs, ?_, ?_, by decide,
    by decide⟩
  · intro hmem
    obtain ⟨i, hi, heq⟩ := List.mem_map.mp hmem
    have h1 : suffixOf i.number ≤ maxSuffix invs := suffix_le_maxSuffix invs i hi
    rw [heq, suffixOf_nextNumber] at h1
    omega
  · intro i hi
    have h1 : suffixOf i.number ≤ maxSuffix invs := suffix_le_maxSuffix invs i hi
    rw [suffixOf_nextNumber]
    omega
  · exact (genNumbers_pairwise N invs).imp
      (fun hlt heq => absurd (heq ▸ hlt) (lt_irrefl _))
  · intro s hs i hi
    have h1 : suffixOf i.number ≤ maxSuffix invs := suffix_le_maxSuffix invs i hi
    have h2 := genNumbers_suffix_gt N invs s hs
    omega

/-- Witness for C2 at the empty collection and a two-invoice collection. -/
theorem nextNumber_spec_witness :
    genNumbers 2 [] = ["INV-0001", "INV-0002"]
    ∧ suffixOf (blankInvoice "INV-0001").number
        < suffixOf (nextNumber [blankInvoice "INV-0001", blankInvoice "INV-0002"]) := by
  refine ⟨(nextNumber_spec [] 0).2.2.2.2.2.2.1, ?_⟩
  exact (nextNumber_spec [blankInvoice "INV-0001", blankInvoice "INV-0002"] 0).2.1
    (blankInvoice "INV-0001") (by simp)

end FacturaPro
